import Mathlib

/-!
Shallow embedding of the COVID-19 lung-infection segmentation repository:
the loss library (`losses/losses.py`) and the 3D-UNet training loop
(`trainer/trainerunet3d.py`).

Tensors with shape (N, C, D, H, W) are modelled as total functions from
five natural-number indices to rationals; only positions below the given
bounds are meaningful.  Label tensors with shape (N, D, H, W) are modelled
as functions to naturals.  Machine floats of the source are modelled as
exact rationals, and Python exceptions as `Except` results.
-/

/-- A real-valued tensor indexed as (batch, channel, depth, height, width). -/
abbrev Tensor5 : Type := ℕ → ℕ → ℕ → ℕ → ℕ → ℚ

/-- An integer label tensor indexed as (batch, depth, height, width). -/
abbrev Labels4 : Type := ℕ → ℕ → ℕ → ℕ → ℕ

/-- Row-major enumeration of the (n, d, h, w) positions of an N x D x H x W
tensor, in the order a contiguous (N, D, H, W) block is laid out. -/
def indexList (N D H W : ℕ) : List (ℕ × ℕ × ℕ × ℕ) :=
  (List.range N).flatMap fun n =>
    (List.range D).flatMap fun d =>
      (List.range H).flatMap fun h =>
        (List.range W).map fun w => (n, d, h, w)

/-- Models `flatten(tensor)` of `losses.py`: the (N, C, D, H, W) tensor is
permuted to channel-first and reshaped to (C, N*D*H*W); `flatten N D H W t c`
is row `c` of that result, listing the channel-`c` entries in row-major
(n, d, h, w) order. -/
def flatten (N D H W : ℕ) (t : Tensor5) (c : ℕ) : List ℚ :=
  (indexList N D H W).map fun p => t p.1 c p.2.1 p.2.2.1 p.2.2.2

/-- Models `compute_per_channel_dice(input, target, epsilon, ignore_index, weight)`
of `losses.py` at channel `c`: after optionally masking positions whose target
equals `ignore_index`, both tensors are flattened channel-first, and the result
is `2 * intersect / denominator.clamp(min=epsilon)` where
`intersect = (input * target).sum(-1)` (multiplied by `weight` when given) and
`denominator = (input + target).sum(-1)`.  `clamp(min=e)` is `max · e`. -/
def compute_per_channel_dice (N D H W : ℕ) (input target : Tensor5) (epsilon : ℚ)
    (ignore_index : Option ℚ) (weight : Option (ℕ → ℚ)) (c : ℕ) : ℚ :=
  let maskedInput : Tensor5 :=
    match ignore_index with
    | some ii => fun n c2 d h w => input n c2 d h w * (if target n c2 d h w = ii then 0 else 1)
    | none => input
  let maskedTarget : Tensor5 :=
    match ignore_index with
    | some ii => fun n c2 d h w => target n c2 d h w * (if target n c2 d h w = ii then 0 else 1)
    | none => target
  let flatInput := flatten N D H W maskedInput c
  let flatTarget := flatten N D H W maskedTarget c
  let intersect := (List.zipWith (fun a b => a * b) flatInput flatTarget).sum
  let intersect :=
    match weight with
    | some w => w c * intersect
    | none => intersect
  let denominator := (List.zipWith (fun a b => a + b) flatInput flatTarget).sum
  2 * intersect / max denominator epsilon

/-- Sum of the channel-`c` entries of the elementwise image of two tensors,
written directly as nested sums over all in-range positions.  This is the
formula the specification states for the Dice numerator and denominator. -/
def channelSum (N D H W : ℕ) (f : ℚ → ℚ → ℚ) (input target : Tensor5) (c : ℕ) : ℚ :=
  ∑ n ∈ Finset.range N, ∑ d ∈ Finset.range D, ∑ h ∈ Finset.range H,
    ∑ w ∈ Finset.range W, f (input n c d h w) (target n c d h w)

lemma sum_map_flatMap {α β : Type} (l : List α) (g : α → List β) (f : β → ℚ) :
    ((l.flatMap g).map f).sum = (l.map fun a => (((g a).map f).sum)).sum := by
  induction l with
  | nil => simp
  | cons a t ih => simp [ih]

lemma sum_map_range (n : ℕ) (f : ℕ → ℚ) :
    ((List.range n).map f).sum = ∑ i ∈ Finset.range n, f i := by
  induction n with
  | zero => simp
  | succ m ih =>
    rw [List.range_succ]
    simp [ih, Finset.sum_range_succ]

lemma sum_map_indexList (N D H W : ℕ) (f : ℕ × ℕ × ℕ × ℕ → ℚ) :
    ((indexList N D H W).map f).sum =
      ∑ n ∈ Finset.range N, ∑ d ∈ Finset.range D, ∑ h ∈ Finset.range H,
        ∑ w ∈ Finset.range W, f (n, d, h, w) := by
  unfold indexList
  rw [sum_map_flatMap, sum_map_range]
  refine Finset.sum_congr rfl fun n _ => ?_
  rw [sum_map_flatMap, sum_map_range]
  refine Finset.sum_congr rfl fun d _ => ?_
  rw [sum_map_flatMap, sum_map_range]
  refine Finset.sum_congr rfl fun h _ => ?_
  rw [List.map_map, sum_map_range]
  rfl

lemma zipWith_map_same {α : Type} (op : ℚ → ℚ → ℚ) (f g : α → ℚ) (l : List α) :
    List.zipWith op (l.map f) (l.map g) = l.map fun x => op (f x) (g x) := by
  induction l with
  | nil => rfl
  | cons a t ih => simp [ih]

/-- The unweighted, unmasked per-channel Dice of the code equals the closed
formula of the specification. -/
lemma compute_per_channel_dice_eq (N D H W : ℕ) (input target : Tensor5)
    (epsilon : ℚ) (c : ℕ) :
    compute_per_channel_dice N D H W input target epsilon none none c =
      2 * channelSum N D H W (fun a b => a * b) input target c /
        max (channelSum N D H W (fun a b => a + b) input target c) epsilon := by
  unfold compute_per_channel_dice flatten channelSum
  simp only [zipWith_map_same, List.map_map]
  rw [sum_map_indexList, sum_map_indexList]

/-- Claim C4: for prediction and target of equal shape with `ignore_index`
unset, `compute_per_channel_dice` returns, per channel `c`, exactly
`2 * sum(pred_c * target_c) / clamp(sum(pred_c + target_c), min=epsilon)`
when no weight is given, and a supplied per-channel weight multiplies only
the intersection term, never the denominator. -/
theorem compute_per_channel_dice_formula (N D H W : ℕ) (input target : Tensor5)
    (epsilon : ℚ) (wt : ℕ → ℚ) (c : ℕ) :
    compute_per_channel_dice N D H W input target epsilon none none c =
      2 * channelSum N D H W (fun a b => a * b) input target c /
        max (channelSum N D H W (fun a b => a + b) input target c) epsilon ∧
    compute_per_channel_dice N D H W input target epsilon none (some wt) c =
      wt c * compute_per_channel_dice N D H W input target epsilon none none c := by
  refine ⟨compute_per_channel_dice_eq N D H W input target epsilon c, ?_⟩
  unfold compute_per_channel_dice
  ring

/-- A tensor whose entries are all 1/2, used to exhibit that identical soft
prediction/target pairs do not have Dice 1. -/
def constHalf : Tensor5 := fun _ _ _ _ _ => 1/2

/-- Claim C5 counterexample: with prediction and target both the constant-1/2
tensor of shape (1,1,1,1,1) and the default epsilon 1e-5, the per-channel Dice
is 1/2, which is not within epsilon of 1; so identical tensors do not in
general give per-channel Dice 1. -/
theorem compute_per_channel_dice_identical_half :
    compute_per_channel_dice 1 1 1 1 constHalf constHalf (1/100000) none none 0 = 1/2 ∧
    ¬ ((1 : ℚ) - 1/2 ≤ 1/100000) := by
  constructor
  · rw [compute_per_channel_dice_eq]
    unfold channelSum constHalf
    rw [Finset.sum_range_one, Finset.sum_range_one, Finset.sum_range_one,
        Finset.sum_range_one, Finset.sum_range_one, Finset.sum_range_one,
        Finset.sum_range_one, Finset.sum_range_one]
    rw [max_eq_left (by norm_num)]
    norm_num
  · norm_num

/-- Claim C5 (amended): for identical prediction/target tensors whose
channel-`c` entries are all 0 or 1, with a positive epsilon no larger than
the channel denominator `sum(t_c + t_c)`, the per-channel Dice is exactly 1. -/
theorem compute_per_channel_dice_identical_binary (N D H W : ℕ) (t : Tensor5)
    (epsilon : ℚ) (c : ℕ)
    (hb : ∀ n d h w, t n c d h w = 0 ∨ t n c d h w = 1)
    (he : 0 < epsilon)
    (hle : epsilon ≤ channelSum N D H W (fun a b => a + b) t t c) :
    compute_per_channel_dice N D H W t t epsilon none none c = 1 := by
  rw [compute_per_channel_dice_eq]
  have hmul : channelSum N D H W (fun a b => a * b) t t c =
      channelSum N D H W (fun a b => a + b) t t c / 2 := by
    unfold channelSum
    rw [Finset.sum_div]
    refine Finset.sum_congr rfl fun n _ => ?_
    rw [Finset.sum_div]
    refine Finset.sum_congr rfl fun d _ => ?_
    rw [Finset.sum_div]
    refine Finset.sum_congr rfl fun h _ => ?_
    rw [Finset.sum_div]
    refine Finset.sum_congr rfl fun w _ => ?_
    rcases hb n d h w with h0 | h1
    · rw [h0]; ring
    · rw [h1]; ring
  rw [hmul, max_eq_left hle]
  have hpos : 0 < channelSum N D H W (fun a b => a + b) t t c := lt_of_lt_of_le he hle
  field_simp

/-- Witness for the amended claim C5 at the all-ones 1x1x1x1x1 tensor with
epsilon 1e-5. -/
theorem compute_per_channel_dice_identical_binary_witness :
    (∀ n d h w, (fun _ _ _ _ _ => (1 : ℚ) : Tensor5) n 0 d h w = 0 ∨
      (fun _ _ _ _ _ => (1 : ℚ) : Tensor5) n 0 d h w = 1) ∧
    (0 : ℚ) < 1/100000 ∧
    (1/100000 : ℚ) ≤ channelSum 1 1 1 1 (fun a b => a + b)
      (fun _ _ _ _ _ => 1) (fun _ _ _ _ _ => 1) 0 ∧
    compute_per_channel_dice 1 1 1 1 (fun _ _ _ _ _ => 1) (fun _ _ _ _ _ => 1)
      (1/100000) none none 0 = 1 := by
  have hb : ∀ n d h w, (fun _ _ _ _ _ => (1 : ℚ) : Tensor5) n 0 d h w = 0 ∨
      (fun _ _ _ _ _ => (1 : ℚ) : Tensor5) n 0 d h w = 1 := fun _ _ _ _ => Or.inr rfl
  have he : (0 : ℚ) < 1/100000 := by norm_num
  have hle : (1/100000 : ℚ) ≤ channelSum 1 1 1 1 (fun a b => a + b)
      (fun _ _ _ _ _ => 1) (fun _ _ _ _ _ => 1) 0 := by
    unfold channelSum
    norm_num
  exact ⟨hb, he, hle,
    compute_per_channel_dice_identical_binary 1 1 1 1 (fun _ _ _ _ _ => 1) (1/100000) 0 hb he hle⟩

/-- Models `torch.Tensor.scatter_(1, index, v)` on a 5-axis tensor: iterating
over all positions `(i0, i1, d, h, w)` of the `index` tensor (whose first two
axes have sizes `iN0` and `iN1`), the entry of `base` at batch `i0`, channel
`index i0 i1 d h w` and the same spatial position is overwritten with `v`.
The result at `(a, b, d, h, w)` is therefore `v` when some such write hits it
and the original entry otherwise. -/
def scatter_dim1 (iN0 iN1 : ℕ) (base : Tensor5) (index : ℕ → ℕ → ℕ → ℕ → ℕ → ℕ)
    (v : ℚ) : Tensor5 :=
  fun a b d h w =>
    if ∃ i0 ∈ Finset.range iN0, i0 = a ∧ ∃ i1 ∈ Finset.range iN1, index i0 i1 d h w = b
    then v else base a b d h w

/-- Models `expand_as_one_hot(input, C, ignore_index=None)` of `losses.py` for
an N x D x H x W label tensor: `src = input.unsqueeze(0)` (shape
1 x N x D x H x W, so `src i0 i1 d h w = input i1 d h w`), and the result is
`torch.zeros(N, C, D, H, W).scatter_(1, src, 1)`.  `C` only bounds the valid
label values and does not enter the computation. -/
def expand_as_one_hot (N C : ℕ) (input : Labels4) : Tensor5 :=
  scatter_dim1 1 N (fun _ _ _ _ _ => 0) (fun _ i1 d h w => input i1 d h w) 1

/-- The 2 x 1 x 1 x 1 label tensor whose batch-0 entry is 0 and batch-1 entry
is 1; all labels lie in [0, 2). -/
def twoBatchLabels : Labels4 := fun n _ _ _ => n

/-- Claim C3 (code bug exhibit): on the two-batch label tensor with labels 0
and 1 and C = 2, the channel sums of `expand_as_one_hot` at the single spatial
position are 2 for batch 0 and 0 for batch 1 — not the all-ones tensor the
claim (and the function's own docstring) require.  The `unsqueeze(0)` in the
source puts the batch axis where `scatter_` expects the singleton axis, so
every one-hot write lands in batch row 0. -/
theorem expand_as_one_hot_misplaced_batch :
    (∑ c ∈ Finset.range 2, expand_as_one_hot 2 2 twoBatchLabels 0 c 0 0 0) = 2 ∧
    (∑ c ∈ Finset.range 2, expand_as_one_hot 2 2 twoBatchLabels 1 c 0 0 0) = 0 := by
  constructor
  · rw [Finset.sum_range_succ, Finset.sum_range_one]
    unfold expand_as_one_hot scatter_dim1 twoBatchLabels
    rw [if_pos, if_pos]
    · norm_num
    · exact ⟨0, by simp, rfl, 1, by simp, rfl⟩
    · exact ⟨0, by simp, rfl, 0, by simp, rfl⟩
  · rw [Finset.sum_range_succ, Finset.sum_range_one]
    unfold expand_as_one_hot scatter_dim1 twoBatchLabels
    rw [if_neg, if_neg]
    · norm_num
    · rintro ⟨i0, hi0, h0, -⟩
      rw [Finset.mem_range] at hi0
      omega
    · rintro ⟨i0, hi0, h0, -⟩
      rw [Finset.mem_range] at hi0
      omega

/-- The loss objects `get_loss_criterion` of `losses.py` can build.  Each
constructor records the configuration its Python `__init__` receives:
`CrossEntropyLoss` and `WeightedCrossEntropyLoss` always end up with a
concrete integer `ignore_index`, the remaining classes accept an optional
one, and `FocalLoss` accepts one but never stores it. -/
inductive Loss where
  | BCEWithLogitsLoss : Loss
  | IgnoreIndexLossWrapper : Loss → Int → Loss
  | CrossEntropyLoss : Option (List ℚ) → Int → Loss
  | WeightedCrossEntropyLoss : Option (List ℚ) → Int → Loss
  | PixelWiseCrossEntropyLoss : Option (List ℚ) → Option Int → Loss
  | GeneralizedDiceLoss : Option (List ℚ) → Option Int → Loss
  | DiceLoss : Option (List ℚ) → Option Int → Loss
  | FocalLoss : Option (List ℚ) → Option Int → Loss
  | EntropyLoss : Option (List ℚ) → Option Int → Loss
deriving DecidableEq

/-- Models Python's `hasattr(loss, 'ignore_index')` over the classes of
`losses.py`: `torch.nn.BCEWithLogitsLoss` has no such attribute, and
`FocalLoss.__init__` accepts an `ignore_index` argument but never assigns
`self.ignore_index`; every other class (and `torch.nn.CrossEntropyLoss`)
stores the attribute in its constructor. -/
def hasIgnoreIndex : Loss → Bool
  | Loss.BCEWithLogitsLoss => false
  | Loss.FocalLoss _ _ => false
  | _ => true

/-- Models `IgnoreIndexLossWrapper.__init__(loss_criterion, ignore_index)`:
raises `RuntimeError` when the wrapped loss already exposes an `ignore_index`
attribute, and otherwise builds the wrapper. -/
def IgnoreIndexLossWrapper.init (loss_criterion : Loss) (ignore_index : Int) :
    Except String Loss :=
  if hasIgnoreIndex loss_criterion then
    Except.error ("Cannot wrap: the loss already has an ignore_index attribute")
  else
    Except.ok (Loss.IgnoreIndexLossWrapper loss_criterion ignore_index)

/-- The `SUPPORTED_LOSSES` list of `losses.py`. -/
def SUPPORTED_LOSSES : List String :=
  ["ce", "bce", "wce", "pce", "dice", "gdl", "EntropyLoss", "focal"]

/-- Models `get_loss_criterion(loss_str, weight, ignore_index)` of
`losses.py`: the assertion that `loss_str` is supported becomes the outer
guard (an `AssertionError` is an `Except.error`), after which the source's
if/elif chain picks the loss; `ce` and `wce` replace a missing
`ignore_index` with the library default -100, and `bce` with an
`ignore_index` goes through the `IgnoreIndexLossWrapper` constructor. -/
def get_loss_criterion (loss_str : String) (weight : Option (List ℚ))
    (ignore_index : Option Int) : Except String Loss :=
  if loss_str ∈ SUPPORTED_LOSSES then
    if loss_str = "bce" then
      match ignore_index with
      | none => Except.ok Loss.BCEWithLogitsLoss
      | some ii => IgnoreIndexLossWrapper.init Loss.BCEWithLogitsLoss ii
    else if loss_str = "ce" then
      Except.ok (Loss.CrossEntropyLoss weight
        (match ignore_index with | none => -100 | some ii => ii))
    else if loss_str = "wce" then
      Except.ok (Loss.WeightedCrossEntropyLoss weight
        (match ignore_index with | none => -100 | some ii => ii))
    else if loss_str = "pce" then
      Except.ok (Loss.PixelWiseCrossEntropyLoss weight ignore_index)
    else if loss_str = "gdl" then
      Except.ok (Loss.GeneralizedDiceLoss weight ignore_index)
    else if loss_str = "dice" then
      Except.ok (Loss.DiceLoss weight ignore_index)
    else if loss_str = "focal" then
      Except.ok (Loss.FocalLoss weight ignore_index)
    else
      Except.ok (Loss.EntropyLoss weight ignore_index)
  else
    Except.error ("Invalid loss string: " ++ loss_str)

/-- Claim C6: `get_loss_criterion` fails with an invalid-configuration error
for every name outside the supported set, and for `ce`/`wce` with no
`ignore_index` the returned loss carries the cross-entropy default -100. -/
theorem get_loss_criterion_validation (name : String) (w : Option (List ℚ))
    (ii : Option Int) (h : name ∉ SUPPORTED_LOSSES) :
    (∃ msg, get_loss_criterion name w ii = Except.error msg) ∧
    get_loss_criterion ("ce") w none = Except.ok (Loss.CrossEntropyLoss w (-100)) ∧
    get_loss_criterion ("wce") w none = Except.ok (Loss.WeightedCrossEntropyLoss w (-100)) := by
  refine ⟨⟨"Invalid loss string: " ++ name, ?_⟩, rfl, rfl⟩
  unfold get_loss_criterion
  rw [if_neg h]

/-- Witness for claim C6 at the unsupported name "bogus". -/
theorem get_loss_criterion_validation_witness :
    (("bogus" : String) ∉ SUPPORTED_LOSSES) ∧
    ((∃ msg, get_loss_criterion ("bogus") none none = Except.error msg) ∧
     get_loss_criterion ("ce") none none = Except.ok (Loss.CrossEntropyLoss none (-100)) ∧
     get_loss_criterion ("wce") none none = Except.ok (Loss.WeightedCrossEntropyLoss none (-100))) :=
  ⟨by decide, get_loss_criterion_validation ("bogus") none none (by decide)⟩

/-- Claim C7: `get_loss_criterion('bce', ignore_index=k)` returns the ignore
wrapper around BCE for every k, and the wrapper constructor errors exactly on
losses that already expose an `ignore_index` attribute and succeeds exactly on
losses that do not. -/
theorem bce_wrapper_construction (w : Option (List ℚ)) (k : Int) (loss : Loss) :
    get_loss_criterion ("bce") w (some k) =
      Except.ok (Loss.IgnoreIndexLossWrapper Loss.BCEWithLogitsLoss k) ∧
    ((∃ e, IgnoreIndexLossWrapper.init loss k = Except.error e) ↔
      hasIgnoreIndex loss = true) ∧
    (IgnoreIndexLossWrapper.init loss k = Except.ok (Loss.IgnoreIndexLossWrapper loss k) ↔
      hasIgnoreIndex loss = false) := by
  refine ⟨rfl, ?_, ?_⟩ <;>
    unfold IgnoreIndexLossWrapper.init <;>
    cases hI : hasIgnoreIndex loss <;>
    simp [hI]

/-- The train/eval mode toggle of the model collaborator
(`model.train()` / `model.eval()`). -/
inductive ModelMode where
  | train : ModelMode
  | eval : ModelMode
deriving DecidableEq

/-- Runs the per-batch body of the validation loop over the loader's batches
at a fixed model mode, stopping at the first batch whose processing raises. -/
def runBatches {ε β : Type} (m : ModelMode) (step : ModelMode → β → Except ε Unit) :
    List β → Except ε Unit
  | [] => Except.ok ()
  | b :: bs =>
    match step m b with
    | Except.ok _ => runBatches m step bs
    | Except.error e => Except.error e

/-- Models a Python `try ... finally ...` over an explicit mode state: the
body runs first (its result may be an exception), and the finalizer runs on
the resulting state whichever way the body exited. -/
def tryFinallySt {ε α : Type} (body : ModelMode → Except ε α × ModelMode)
    (finalizer : ModelMode → ModelMode) (m : ModelMode) : Except ε α × ModelMode :=
  let r := body m
  (r.1, finalizer r.2)

/-- Models `UNet3DTrainer.validate` of `trainerunet3d.py` restricted to its
mode discipline: `self.model.eval()` at entry, then the batch loop inside
`try`, with `finally: self.model.train()`.  `step` is the per-batch work
(forward pass, accuracy update), which may raise; the initial mode `m0` is
whatever mode the model was in at the call. -/
def validate {ε β : Type} (step : ModelMode → β → Except ε Unit) (batches : List β)
    (m0 : ModelMode) : Except ε Unit × ModelMode :=
  let mEval := ModelMode.eval
  tryFinallySt (fun m => (runBatches m step batches, m)) (fun _ => ModelMode.train) mEval

/-- Claim C8: `validate` runs its body with the model in evaluation mode and
leaves the model in training mode on every exit path — both when the loader
is exhausted normally and when any batch raises, the final mode is `train`
and the body's outcome (normal or exceptional) is propagated unchanged. -/
theorem validate_mode_restoration {ε β : Type} (step : ModelMode → β → Except ε Unit)
    (batches : List β) (m0 : ModelMode) :
    validate step batches m0 = (runBatches ModelMode.eval step batches, ModelMode.train) := rfl

/-- The batch tuple shapes `UNet3DTrainer.train` destructures: pairs
`(input, target)`, triples `(input, target, target_)`, and 6-tuples of a base
batch with two augmented views. -/
inductive Batch (ι τ : Type) where
  | len2 : ι → τ → Batch ι τ
  | len3 : ι → τ → τ → Batch ι τ
  | len6 : ι → τ → ι → τ → ι → τ → Batch ι τ

/-- The Python exception a training batch can raise in the embedded fragment:
reading the local `target_` before any assignment. -/
inductive PyError where
  | unboundLocalTarget : PyError
deriving DecidableEq

/-- Models `UNet3DTrainer._forward_pass(input, target, target_)`: the model
returns `(_, y, up)`; the loss starts at 0, accumulates
`loss_criterion_1(up[i], target_) * 0.4` over the auxiliary outputs and then
adds `loss_criterion_1(y, target)`; the result is `(y, loss)`. -/
def forward_pass {ι τ σ π : Type} (model : ι → π × σ × List σ) (loss1 : σ → τ → ℚ)
    (input : ι) (target : τ) (target_ : τ) : σ × ℚ :=
  let y := (model input).2.1
  let up := (model input).2.2
  let loss := up.foldl (fun acc u => acc + loss1 u target_ * (4/10)) 0
  (y, loss + loss1 y target)

/-- Models one iteration of the batch loop of `UNet3DTrainer.train`:
`target_env` is the current binding of the Python local `target_` (`none`
before any length-3 batch of the epoch has run).  A length-3 batch binds
`target_`; length-2 and length-6 batches leave it as it was, so their call
`self._forward_pass(input, target, target_)` raises `UnboundLocalError` when
no binding exists.  A length-6 batch first concatenates the two augmented
views onto the base input and target along the batch axis.  On success the
result carries the network output, the loss, the incremented
`num_iterations`, and the binding of `target_` after the iteration; the
backward pass and optimizer step are opaque collaborator calls. -/
def trainBatch {ι τ σ π : Type} (model : ι → π × σ × List σ) (loss1 : σ → τ → ℚ)
    (catInput : ι → ι → ι) (catTarget : τ → τ → τ) (target_env : Option τ)
    (num_iterations : ℕ) (t : Batch ι τ) : Except PyError (σ × ℚ × ℕ × Option τ) :=
  match t with
  | Batch.len2 input target =>
    match target_env with
    | some target_ =>
      let fp := forward_pass model loss1 input target target_
      Except.ok (fp.1, fp.2, num_iterations + 1, some target_)
    | none => Except.error PyError.unboundLocalTarget
  | Batch.len3 input target target_ =>
    let fp := forward_pass model loss1 input target target_
    Except.ok (fp.1, fp.2, num_iterations + 1, some target_)
  | Batch.len6 input target aug1_in aug1_ta aug2_in aug2_ta =>
    let inputCat := catInput (catInput input aug1_in) aug2_in
    let targetCat := catTarget (catTarget target aug1_ta) aug2_ta
    match target_env with
    | some target_ =>
      let fp := forward_pass model loss1 inputCat targetCat target_
      Except.ok (fp.1, fp.2, num_iterations + 1, some target_)
    | none => Except.error PyError.unboundLocalTarget

lemma foldl_add_mul {σ : Type} (f : σ → ℚ) (l : List σ) (c : ℚ) :
    l.foldl (fun acc u => acc + f u * (4/10)) c = c + (4/10) * (l.map f).sum := by
  induction l generalizing c with
  | nil => simp
  | cons a t ih =>
    rw [List.foldl_cons, ih, List.map_cons, List.sum_cons]
    ring

/-- The forward pass returns the main output together with the deep
supervision loss: primary loss on the main output plus 0.4 times the sum of
the auxiliary losses. -/
lemma forward_pass_eval {ι τ σ π : Type} (model : ι → π × σ × List σ)
    (loss1 : σ → τ → ℚ) (input : ι) (target : τ) (target_ : τ) :
    forward_pass model loss1 input target target_ =
      ((model input).2.1,
       loss1 ((model input).2.1) target +
         (4/10) * (((model input).2.2).map (fun u => loss1 u target_)).sum) := by
  unfold forward_pass
  dsimp only
  rw [foldl_add_mul, zero_add,
    add_comm ((4/10 : ℚ) * (((model input).2.2).map (fun u => loss1 u target_)).sum)
      (loss1 ((model input).2.1) target)]

/-- A concrete model collaborator for the counterexample: one auxiliary
output equal to the main output. -/
def cxModel : ℚ → ℚ × ℚ × List ℚ := fun x => (x, x, [x])

/-- A concrete loss collaborator for the counterexample. -/
def cxLoss : ℚ → ℚ → ℚ := fun a b => a * b

/-- A concrete concatenation collaborator for the counterexample. -/
def cxCat : ℚ → ℚ → ℚ := fun a b => a + b

/-- Claim C9 counterexample: with fresh epoch-local state (no `target_`
binding yet), the first batch being the 2-tuple `(1, 1)` makes the training
step raise `UnboundLocalError` at the `_forward_pass(input, target, target_)`
call instead of processing the batch; so the 2-tuple shape is not supported
on its own. -/
theorem train_len2_unbound_local :
    trainBatch cxModel cxLoss cxCat cxCat none 0 (Batch.len2 1 1) =
      Except.error PyError.unboundLocalTarget := rfl

/-- Claim C9 (amended): a length-3 batch is processed by the forward pass
with loss equal to the primary loss on the main output plus 0.4 times the sum
of the per-auxiliary-output losses, incrementing `num_iterations` by exactly
1 and binding `target_`; length-2 and length-6 batches fail with an
unbound-local error when no earlier length-3 batch of the epoch bound
`target_`, and otherwise are processed the same way against that stale
binding, the length-6 case first concatenating the two augmented views onto
the base input and target along the batch axis. -/
theorem train_batch_shapes {ι τ σ π : Type} (model : ι → π × σ × List σ)
    (loss1 : σ → τ → ℚ) (catInput : ι → ι → ι) (catTarget : τ → τ → τ)
    (n : ℕ) (input aug1_in aug2_in : ι) (target tA aug1_ta aug2_ta : τ) :
    trainBatch model loss1 catInput catTarget none n (Batch.len3 input target tA) =
      Except.ok ((model input).2.1,
        loss1 ((model input).2.1) target +
          (4/10) * (((model input).2.2).map (fun u => loss1 u tA)).sum,
        n + 1, some tA) ∧
    trainBatch model loss1 catInput catTarget none n (Batch.len2 input target) =
      Except.error PyError.unboundLocalTarget ∧
    trainBatch model loss1 catInput catTarget none n
        (Batch.len6 input target aug1_in aug1_ta aug2_in aug2_ta) =
      Except.error PyError.unboundLocalTarget ∧
    trainBatch model loss1 catInput catTarget (some tA) n (Batch.len2 input target) =
      Except.ok ((model input).2.1,
        loss1 ((model input).2.1) target +
          (4/10) * (((model input).2.2).map (fun u => loss1 u tA)).sum,
        n + 1, some tA) ∧
    trainBatch model loss1 catInput catTarget (some tA) n
        (Batch.len6 input target aug1_in aug1_ta aug2_in aug2_ta) =
      Except.ok ((model (catInput (catInput input aug1_in) aug2_in)).2.1,
        loss1 ((model (catInput (catInput input aug1_in) aug2_in)).2.1)
            (catTarget (catTarget target aug1_ta) aug2_ta) +
          (4/10) * (((model (catInput (catInput input aug1_in) aug2_in)).2.2).map
            (fun u => loss1 u tA)).sum,
        n + 1, some tA) := by
  refine ⟨?_, rfl, rfl, ?_, ?_⟩ <;>
    simp [trainBatch, forward_pass_eval]

/-- The trainer state `_check_early_stopping` reads and writes: the patience
counters (Python ints) and the optimizer collaborator's parameter-group
learning rates. -/
structure EState where
  patience : Int
  max_patience : Int
  lrs : List ℚ
deriving DecidableEq

/-- Models `UNet3DTrainer._adjust_learning_rate(decay_rate)`: `get_lr` reads
the first parameter group's learning rate (`none` when there are no groups,
on which the subsequent comparison raises), the source asserts `old_lr > 0`,
and every group's rate is set to `decay_rate * old_lr`. -/
def adjust_learning_rate (decay_rate : ℚ) (lrs : List ℚ) : Except String (List ℚ) :=
  match lrs.head? with
  | some old_lr =>
    if 0 < old_lr then
      Except.ok (lrs.map (fun _ => decay_rate * old_lr))
    else
      Except.error ("assert old_lr > 0 failed")
  | none => Except.error ("get_lr returned None")

/-- Models `UNet3DTrainer._check_early_stopping(best_model_found)`.  On a
best model the patience is reset to `max_patience` and the call returns
false.  Otherwise the patience is decremented; when it is then <= 0 the call
returns true (terminate); when it equals `max_patience // 2` (Python floor
division) the learning rate is decayed with the default rate 0.1.  The
result triple is (return value, whether `_adjust_learning_rate` was invoked,
new state); an assertion failure inside the decay surfaces as an error. -/
def check_early_stopping (best_model_found : Bool) (s : EState) :
    Except String (Bool × Bool × EState) :=
  if best_model_found then
    Except.ok (false, false, { s with patience := s.max_patience })
  else
    let p := s.patience - 1
    if p ≤ 0 then
      Except.ok (true, false, { s with patience := p })
    else if p = s.max_patience.fdiv 2 then
      match adjust_learning_rate (1/10) s.lrs with
      | Except.ok lrs2 =>
        Except.ok (false, true, { patience := p, max_patience := s.max_patience, lrs := lrs2 })
      | Except.error e => Except.error e
    else
      Except.ok (false, false, { s with patience := p })

/-- Runs a sequence of `_check_early_stopping` calls, collecting the returned
booleans, the number of calls that invoked `_adjust_learning_rate`, and the
final state; a raised assertion stops the run. -/
def runChecks (s : EState) : List Bool → Except String (List Bool × ℕ × EState)
  | [] => Except.ok ([], 0, s)
  | b :: bs =>
    match check_early_stopping b s with
    | Except.error e => Except.error e
    | Except.ok (r, d, s2) =>
      match runChecks s2 bs with
      | Except.error e => Except.error e
      | Except.ok (rs, k, s3) => Except.ok (r :: rs, (if d then 1 else 0) + k, s3)

lemma adjust_ok_iff (decay : ℚ) (lrs lrs2 : List ℚ) :
    adjust_learning_rate decay lrs = Except.ok lrs2 ↔
      ∃ old_lr, lrs.head? = some old_lr ∧ 0 < old_lr ∧
        lrs2 = lrs.map (fun _ => decay * old_lr) := by
  unfold adjust_learning_rate
  rcases lrs with _ | ⟨a, t⟩
  · simp
  · by_cases hpos : 0 < a
    · simp [hpos, eq_comm]
    · simp [hpos]

/-- Claim C1 counterexample: starting from patience = max_patience = 3 and a
single parameter group with learning rate 1, the run
[false, false, true, false, false] invokes the learning-rate decay twice (at
the second and fifth calls, each time the decremented patience reaches
3 // 2 = 1), not exactly once per run as the claim states. -/
theorem check_early_stopping_double_decay_run :
    runChecks { patience := 3, max_patience := 3, lrs := [1] }
        [false, false, true, false, false] =
      Except.ok ([false, false, false, false, false], 2,
        { patience := 1, max_patience := 3, lrs := [1/100] }) := by
  simp only [runChecks, check_early_stopping, adjust_learning_rate]
  norm_num [Int.fdiv]

/-- Claim C1 (amended): an `is_best=true` call resets the patience to
`max_patience`, leaves the learning rates unchanged and returns false; an
`is_best=false` call decrements the patience and returns true exactly when
the decremented patience is <= 0, and invokes the learning-rate decay (every
parameter group set to 0.1 times the first group's rate) exactly when the
decremented patience is positive and equals `max_patience // 2` — hence at
most once per stretch of consecutive non-improving calls, but possibly again
after an `is_best=true` reset.  In the concrete scenario with
max_patience = 3 and patience = 3, three consecutive `is_best=false` calls
return [false, false, true] and the decay fires exactly once, when the
patience reaches 1. -/
theorem check_early_stopping_behaviour (s : EState) :
    check_early_stopping true s =
      Except.ok (false, false, { s with patience := s.max_patience }) ∧
    ((∃ e, check_early_stopping false s = Except.error e) →
      (0 < s.patience - 1 ∧ s.patience - 1 = s.max_patience.fdiv 2 ∧
        ∃ e2, adjust_learning_rate (1/10) s.lrs = Except.error e2)) ∧
    (∀ r d s2, check_early_stopping false s = Except.ok (r, d, s2) →
      (s2.patience = s.patience - 1 ∧ s2.max_patience = s.max_patience ∧
       (r = true ↔ s.patience - 1 ≤ 0) ∧
       (d = true ↔ (0 < s.patience - 1 ∧ s.patience - 1 = s.max_patience.fdiv 2)) ∧
       s2.lrs = (if d then s.lrs.map (fun _ => (1/10) * s.lrs.headD 0) else s.lrs))) ∧
    runChecks { patience := 3, max_patience := 3, lrs := [1] } [false, false, false] =
      Except.ok ([false, false, true], 1, { patience := 0, max_patience := 3, lrs := [1/10] }) := by
  refine ⟨rfl, ?_, ?_, ?_⟩
  · rintro ⟨e, he⟩
    unfold check_early_stopping at he
    rw [if_neg (Bool.false_ne_true)] at he
    by_cases hp : s.patience - 1 ≤ 0
    · rw [if_pos hp] at he
      exact absurd he (by simp)
    · rw [if_neg hp] at he
      by_cases hd : s.patience - 1 = s.max_patience.fdiv 2
      · rw [if_pos hd] at he
        refine ⟨by omega, hd, ?_⟩
        rcases ha : adjust_learning_rate (1/10) s.lrs with e2 | lrs2
        · exact ⟨e2, rfl⟩
        · rw [ha] at he
          exact absurd he (by simp)
      · rw [if_neg hd] at he
        exact absurd he (by simp)
  · intro r d s2 hok
    unfold check_early_stopping at hok
    rw [if_neg (Bool.false_ne_true)] at hok
    by_cases hp : s.patience - 1 ≤ 0
    · rw [if_pos hp] at hok
      simp only [Except.ok.injEq, Prod.mk.injEq] at hok
      obtain ⟨hr, hd, hs⟩ := hok
      subst hr hd hs
      refine ⟨rfl, rfl, by simp [hp], ?_, by simp⟩
      refine ⟨fun hx => by simp at hx, fun hx => ?_⟩
      exact absurd hx.1 (by omega)
    · rw [if_neg hp] at hok
      by_cases hd : s.patience - 1 = s.max_patience.fdiv 2
      · rw [if_pos hd] at hok
        rcases ha : adjust_learning_rate (1/10) s.lrs with e2 | lrs2
        · rw [ha] at hok
          exact absurd hok (by simp)
        · rw [ha] at hok
          simp only [Except.ok.injEq, Prod.mk.injEq] at hok
          obtain ⟨hr, hdd, hs⟩ := hok
          subst hr hdd hs
          obtain ⟨old_lr, hh, hpos, hmap⟩ := (adjust_ok_iff (1/10) s.lrs lrs2).mp ha
          refine ⟨rfl, rfl, by simp [hp], ?_, ?_⟩
          · exact ⟨fun _ => ⟨by omega, hd⟩, fun _ => rfl⟩
          · rw [if_pos rfl, hmap]
            have hD : s.lrs.headD 0 = old_lr := by
              rw [List.headD_eq_head?_getD, hh]
              rfl
            rw [hD]
      · rw [if_neg hd] at hok
        simp only [Except.ok.injEq, Prod.mk.injEq] at hok
        obtain ⟨hr, hdd, hs⟩ := hok
        subst hr hdd hs
        refine ⟨rfl, rfl, by simp [hp], by simp [hp, hd], by simp⟩
  · simp only [runChecks, check_early_stopping, adjust_learning_rate]
    norm_num [Int.fdiv]

/-- Models Python's binary `max(a, b)` (returns the first argument on ties)
over values that may be `float('-inf')`, modelled as `⊥` in `WithBot ℚ`. -/
def pymax (a b : WithBot ℚ) : WithBot ℚ := if a < b then b else a

/-- Models `UNet3DTrainer._is_best_val_accuracy(val_accuracy)`:
`is_best = val_accuracy > self.best_val_accuracy`, then
`self.best_val_accuracy = max(val_accuracy, self.best_val_accuracy)`; the
result is `(is_best, new best_val_accuracy)`. -/
def is_best_val_accuracy (best_val_accuracy : WithBot ℚ) (val_accuracy : ℚ) :
    Bool × WithBot ℚ :=
  (decide (best_val_accuracy < (val_accuracy : WithBot ℚ)),
   pymax (val_accuracy : WithBot ℚ) best_val_accuracy)

/-- Feeds a sequence of validation accuracies through
`_is_best_val_accuracy`, collecting the `is_best` answers and the final
`best_val_accuracy`. -/
def runIsBest (best : WithBot ℚ) : List ℚ → List Bool × WithBot ℚ
  | [] => ([], best)
  | v :: vs =>
    let r := is_best_val_accuracy best v
    let rest := runIsBest r.2 vs
    (r.1 :: rest.1, rest.2)

lemma pymax_eq_max (v : ℚ) (b : WithBot ℚ) :
    pymax (v : WithBot ℚ) b = max (v : WithBot ℚ) b := by
  unfold pymax
  rcases lt_trichotomy ((v : WithBot ℚ)) b with h | h | h
  · rw [if_pos h, max_eq_right h.le]
  · rw [if_neg (by simp [h]), h, max_self]
  · rw [if_neg (not_lt.mpr h.le), max_eq_left h.le]

/-- Claim C2: `_is_best_val_accuracy(v)` returns true exactly when `v` is
strictly greater than the current best (so a tie is not an improvement), and
afterwards the best is `max(v, best)`; feeding [0.5, 0.7, 0.6] starting from
-inf yields the `is_best` sequence [true, true, false] and final best 0.7. -/
theorem is_best_val_accuracy_spec (v : ℚ) (b : WithBot ℚ) :
    ((is_best_val_accuracy b v).1 = true ↔ b < (v : WithBot ℚ)) ∧
    (is_best_val_accuracy b v).2 = max (v : WithBot ℚ) b ∧
    runIsBest ⊥ [1/2, 7/10, 3/5] = ([true, true, false], ((7/10 : ℚ) : WithBot ℚ)) := by
  refine ⟨by simp [is_best_val_accuracy], pymax_eq_max v b, ?_⟩
  have h1 : (⊥ : WithBot ℚ) < ((1/2 : ℚ) : WithBot ℚ) := by simp
  have h2 : ((1/2 : ℚ) : WithBot ℚ) < ((7/10 : ℚ) : WithBot ℚ) := by
    rw [WithBot.coe_lt_coe]
    norm_num
  have h3 : ¬ (((7/10 : ℚ) : WithBot ℚ) < ((3/5 : ℚ) : WithBot ℚ)) := by
    rw [WithBot.coe_lt_coe]
    norm_num
  have h4 : ¬ (((1/2 : ℚ) : WithBot ℚ) < (⊥ : WithBot ℚ)) := by simp
  have h6 : ¬ (((7/10 : ℚ) : WithBot ℚ) < ((1/2 : ℚ) : WithBot ℚ)) := by
    rw [WithBot.coe_lt_coe]
    norm_num
  have hT : ((3/5 : ℚ) : WithBot ℚ) < ((7/10 : ℚ) : WithBot ℚ) := by
    rw [WithBot.coe_lt_coe]
    norm_num
  simp only [runIsBest, is_best_val_accuracy, pymax]
  simp only [if_neg h4]
  simp only [if_neg h6]
  simp only [if_pos hT]
  simp [h1, h3]
  norm_num

/-- The live `UNet3DTrainer` scheduling state used by checkpointing; the
model and optimizer parameter payloads are opaque collaborator state and
are not represented. -/
structure TrainerState where
  num_epoch : ℕ
  num_iterations : ℕ
  best_val_accuracy : WithBot ℚ
  patience : Int
  max_patience : Int
  max_num_epochs : ℕ
  max_num_iterations : ℕ
  validate_after_iters : ℕ
  log_after_iters : ℕ
deriving DecidableEq

/-- The fields of the checkpoint dictionary written by
`UNet3DTrainer._save_checkpoint` (minus the model/optimizer state dicts and
device string, which are opaque payloads). -/
structure Checkpoint where
  epoch : ℕ
  num_iterations : ℕ
  best_val_accuracy : WithBot ℚ
  max_num_epochs : ℕ
  max_num_iterations : ℕ
  validate_after_iters : ℕ
  log_after_iters : ℕ
  max_patience : Int
  patience : Int
deriving DecidableEq

/-- Models `UNet3DTrainer._save_checkpoint`: the checkpoint records
`'epoch': self.num_epoch + 1` and every other field at its live value. -/
def save_checkpoint (s : TrainerState) : Checkpoint :=
  { epoch := s.num_epoch + 1
    num_iterations := s.num_iterations
    best_val_accuracy := s.best_val_accuracy
    max_num_epochs := s.max_num_epochs
    max_num_iterations := s.max_num_iterations
    validate_after_iters := s.validate_after_iters
    log_after_iters := s.log_after_iters
    max_patience := s.max_patience
    patience := s.patience }

/-- Models `UNet3DTrainer.from_checkpoint`: the loaded state dictionary is
first overridden with `state['patience'] = 100` and
`state['max_patience'] = 100`, then the trainer is rebuilt with
`num_epoch = state['epoch']`, the remaining schedule fields from the
checkpoint, and the `validate_after_iters` / `log_after_iters` arguments. -/
def from_checkpoint (c : Checkpoint) (validate_after_iters log_after_iters : ℕ) :
    TrainerState :=
  { num_epoch := c.epoch
    num_iterations := c.num_iterations
    best_val_accuracy := c.best_val_accuracy
    patience := 100
    max_patience := 100
    max_num_epochs := c.max_num_epochs
    max_num_iterations := c.max_num_iterations
    validate_after_iters := validate_after_iters
    log_after_iters := log_after_iters }

/-- The epochs `UNet3DTrainer.fit` iterates:
`for _ in range(self.num_epoch, self.max_num_epochs)`. -/
def fitEpochs (s : TrainerState) : List ℕ :=
  List.range' s.num_epoch (s.max_num_epochs - s.num_epoch)

/-- Claim C10: a checkpoint written during epoch e records epoch = e + 1
while `num_iterations`, `best_val_accuracy`, `patience` and `max_patience`
are recorded live; `from_checkpoint` installs the saved epoch directly as the
restored trainer's `num_epoch`, so the restored `fit` iterates the epochs
from e + 1 and never revisits epoch e. -/
theorem checkpoint_epoch_roundtrip (s : TrainerState) (vai lai : ℕ) :
    (save_checkpoint s).epoch = s.num_epoch + 1 ∧
    (save_checkpoint s).num_iterations = s.num_iterations ∧
    (save_checkpoint s).best_val_accuracy = s.best_val_accuracy ∧
    (save_checkpoint s).patience = s.patience ∧
    (save_checkpoint s).max_patience = s.max_patience ∧
    (from_checkpoint (save_checkpoint s) vai lai).num_epoch = (save_checkpoint s).epoch ∧
    fitEpochs (from_checkpoint (save_checkpoint s) vai lai) =
      List.range' (s.num_epoch + 1) (s.max_num_epochs - (s.num_epoch + 1)) ∧
    s.num_epoch ∉ fitEpochs (from_checkpoint (save_checkpoint s) vai lai) := by
  refine ⟨rfl, rfl, rfl, rfl, rfl, rfl, rfl, ?_⟩
  intro hmem
  unfold fitEpochs from_checkpoint save_checkpoint at hmem
  dsimp only at hmem
  rw [List.mem_range'_1] at hmem
  omega

/-- Witness for the amended claim C1 at the concrete state
patience = 3, max_patience = 3, lrs = [1] and one `is_best=false` call. -/
theorem check_early_stopping_behaviour_witness :
    check_early_stopping false { patience := 3, max_patience := 3, lrs := [1] } =
      Except.ok (false, false, { patience := 2, max_patience := 3, lrs := [1] }) ∧
    (({ patience := 2, max_patience := 3, lrs := [1] } : EState).patience = (3 : Int) - 1 ∧
     ({ patience := 2, max_patience := 3, lrs := [1] } : EState).max_patience = 3 ∧
     (false = true ↔ (3 : Int) - 1 ≤ 0) ∧
     (false = true ↔ (0 < (3 : Int) - 1 ∧ (3 : Int) - 1 = (3 : Int).fdiv 2)) ∧
     ({ patience := 2, max_patience := 3, lrs := [1] } : EState).lrs =
       (if false then ([1] : List ℚ).map (fun _ => (1/10 : ℚ) * ([1] : List ℚ).headD 0)
        else ([1] : List ℚ))) :=
  ⟨rfl, (check_early_stopping_behaviour { patience := 3, max_patience := 3, lrs := [1] }).2.2.1
    false false { patience := 2, max_patience := 3, lrs := [1] } rfl⟩
